import Mathlib

/-!
Verification development for the SVG-to-turtle drawing pipeline in
src/quockhanh2025/draw.py.  Real arithmetic of the source is modelled over ℚ;
the regex front end of parse_transform is modelled by its output, a list of
(function-name, numeric-argument-list) pairs, and the external curve library
by the data it returns (segment sample lists, bounding boxes).
-/

namespace Draw

/-- A point (x, y); the source works on coordinate pairs produced from
complex numbers via p.real, p.imag. -/
abbrev Point := ℚ × ℚ

/-- 3×3 affine matrix, rows [[m00,m01,m02],[m10,m11,m12],[m20,m21,m22]],
as built by mat_identity / the transform branches in draw.py. -/
structure Mat3 where
  m00 : ℚ
  m01 : ℚ
  m02 : ℚ
  m10 : ℚ
  m11 : ℚ
  m12 : ℚ
  m20 : ℚ
  m21 : ℚ
  m22 : ℚ
deriving DecidableEq, Repr

/-- mat_identity from draw.py (lines 55-58). -/
def mat_identity : Mat3 := ⟨1, 0, 0, 0, 1, 0, 0, 0, 1⟩

/-- mat_mul from draw.py (lines 60-71): full 3×3 matrix product. -/
def mat_mul (a b : Mat3) : Mat3 :=
  ⟨a.m00*b.m00 + a.m01*b.m10 + a.m02*b.m20,
   a.m00*b.m01 + a.m01*b.m11 + a.m02*b.m21,
   a.m00*b.m02 + a.m01*b.m12 + a.m02*b.m22,
   a.m10*b.m00 + a.m11*b.m10 + a.m12*b.m20,
   a.m10*b.m01 + a.m11*b.m11 + a.m12*b.m21,
   a.m10*b.m02 + a.m11*b.m12 + a.m12*b.m22,
   a.m20*b.m00 + a.m21*b.m10 + a.m22*b.m20,
   a.m20*b.m01 + a.m21*b.m11 + a.m22*b.m21,
   a.m20*b.m02 + a.m21*b.m12 + a.m22*b.m22⟩

/-- mat_apply from draw.py (lines 73-76), on a point pair. -/
def mat_apply (m : Mat3) (p : Point) : Point :=
  (m.m00 * p.1 + m.m01 * p.2 + m.m02, m.m10 * p.1 + m.m11 * p.2 + m.m12)

/-- Models Python str.lower() for the ASCII function names captured by the
regex (\w+)\s*\(([^)]*)\) in parse_transform. -/
def str_lower (s : String) : String := ⟨s.data.map Char.toLower⟩

/-- One parsed transform function call: the regex capture (name, numeric
args), the args being what parse_numbers extracts from the argument text. -/
abbrev TOp := String × List ℚ

/-- The matrix tm built for one function call in the parse_transform loop
(draw.py lines 88-113): translate / scale / rotate / matrix branches, any
other name (or matrix with fewer than 6 values) leaves tm = mat_identity.
cosd/sind stand for cos(radians ·) and sin(radians ·) of the source. -/
def opMatrix (cosd sind : ℚ → ℚ) (op : TOp) : Mat3 :=
  if str_lower op.1 = "translate" then
    ⟨1, 0, op.2.getD 0 0, 0, 1, op.2.getD 1 0, 0, 0, 1⟩
  else if str_lower op.1 = "scale" then
    ⟨op.2.getD 0 1, 0, 0, 0, op.2.getD 1 (op.2.getD 0 1), 0, 0, 0, 1⟩
  else if str_lower op.1 = "rotate" then
    if 2 < op.2.length then
      mat_mul
        (mat_mul ⟨1, 0, op.2.getD 1 0, 0, 1, op.2.getD 2 0, 0, 0, 1⟩
          ⟨cosd (op.2.getD 0 0), -(sind (op.2.getD 0 0)), 0,
           sind (op.2.getD 0 0), cosd (op.2.getD 0 0), 0, 0, 0, 1⟩)
        ⟨1, 0, -(op.2.getD 1 0), 0, 1, -(op.2.getD 2 0), 0, 0, 1⟩
    else
      ⟨cosd (op.2.getD 0 0), -(sind (op.2.getD 0 0)), 0,
       sind (op.2.getD 0 0), cosd (op.2.getD 0 0), 0, 0, 0, 1⟩
  else if str_lower op.1 = "matrix" ∧ 6 ≤ op.2.length then
    ⟨op.2.getD 0 0, op.2.getD 2 0, op.2.getD 4 0,
     op.2.getD 1 0, op.2.getD 3 0, op.2.getD 5 0, 0, 0, 1⟩
  else mat_identity

/-- parse_transform from draw.py (lines 82-115): start from the identity and
fold each function call by m = mat_mul(tm, m), in textual order. -/
def parse_transform (cosd sind : ℚ → ℚ) (ops : List TOp) : Mat3 :=
  ops.foldl (fun m op => mat_mul (opMatrix cosd sind op) m) mat_identity

/-- A rectangle (minX, minY, maxX, maxY), the shape of the 4-element viewbox
lists and of compute_bounds results in draw.py. -/
structure Extent where
  minX : ℚ
  minY : ℚ
  maxX : ℚ
  maxY : ℚ
deriving DecidableEq, Repr

/-- A path bounding box as returned by path.bbox() in svgpathtools order
(x0, x1, y0, y1), consumed at draw.py line 42. -/
structure BBox where
  x0 : ℚ
  x1 : ℚ
  y0 : ℚ
  y1 : ℚ
deriving DecidableEq, Repr

/-- One step of the running min/max accumulation over path bounding boxes in
read_svg (draw.py lines 40-48).  The accumulator starts at
(inf, inf, -inf, -inf); `none` models the untouched start state and a
`none` bbox models a path whose bbox() raised (the except/continue). -/
def bbox_step (acc : Option Extent) (ob : Option BBox) : Option Extent :=
  match ob with
  | none => acc
  | some bb =>
    match acc with
    | none => some ⟨bb.x0, bb.y0, bb.x1, bb.y1⟩
    | some e => some ⟨min e.minX bb.x0, min e.minY bb.y0,
                      max e.maxX bb.x1, max e.maxY bb.y1⟩

/-- The union of the per-path bounding boxes computed by the loop at draw.py
lines 40-48; `none` iff no path yielded a bbox (the min_x == inf test). -/
def union_bboxes (bbs : List (Option BBox)) : Option Extent :=
  bbs.foldl bbox_step none

/-- The viewbox resolution of read_svg (draw.py lines 23-52).  vbTokens is
the whitespace/comma token list of a declared viewBox attribute (none when
the attribute is absent or empty, i.e. falsy); width/height are the parsed
document dimensions (_to_float defaults them to 0). -/
def read_svg_viewbox (vbTokens : Option (List ℚ)) (width height : ℚ)
    (bbs : List (Option BBox)) : Extent :=
  match vbTokens with
  | some parts =>
    if parts.length = 4 then
      ⟨parts.getD 0 0, parts.getD 1 0, parts.getD 2 0, parts.getD 3 0⟩
    else ⟨0, 0, width, height⟩
  | none =>
    if 0 < width ∧ 0 < height then ⟨0, 0, width, height⟩
    else
      match union_bboxes bbs with
      | some e => e
      | none => ⟨0, 0, 1000, 1000⟩

/-- interp_num at draw.py line 138: max(2, ceil(seg.length()/seg_unit)). -/
def interp_num (len unit : ℚ) : ℕ :=
  max 2 (Int.ceil (len / unit)).toNat

/-- np.linspace(0, 1, n, endpoint=True) at draw.py line 139: n evenly spaced
parameter values i/(n-1) for i = 0..n-1. -/
def linspace01 (n : ℕ) : List ℚ :=
  (List.range n).map (fun i : ℕ => (i : ℚ) / ((n : ℚ) - 1))

/-- Ring assembly at draw.py lines 136-147: concatenate the per-segment
sample lists of one continuous subpath, append a copy of the first point
(np.append(points, points[0])), then apply the composed transform to every
point. -/
def build_ring (m : Mat3) (segSamples : List (List Point)) : List Point :=
  (segSamples.flatten ++ [segSamples.flatten.headI]).map (mat_apply m)

/-- compute_bounds update for one point (draw.py lines 199-203); `none`
models the untouched (inf, inf, -inf, -inf) start. -/
def bounds_step (acc : Option Extent) (p : Point) : Option Extent :=
  match acc with
  | none => some ⟨p.1, p.2, p.1, p.2⟩
  | some e => some ⟨min e.minX p.1, min e.minY p.2,
                    max e.maxX p.1, max e.maxY p.2⟩

/-- compute_bounds from draw.py (lines 192-206): min/max over every point of
every ring of every multipolygon, defaulting to [0,0,1000,1000]. -/
def compute_bounds (polys : List (List (List Point))) : Extent :=
  match (polys.flatten.flatten).foldl bounds_step none with
  | some e => e
  | none => ⟨0, 0, 1000, 1000⟩

/-- The extent main actually uses for the coordinate mapping (draw.py lines
212-217): (0,0,width,height) when both dimensions are positive, else
compute_bounds over the assembled polygons; the viewbox returned by
read_svg is not consulted. -/
def main_vb (width height : ℚ) (polys : List (List (List Point))) : Extent :=
  if 0 < width ∧ 0 < height then ⟨0, 0, width, height⟩
  else compute_bounds polys

/-- vb_w at draw.py line 219: extent width floored to 1e-6. -/
def vb_w (vb : Extent) : ℚ := max (vb.maxX - vb.minX) (1/1000000)

/-- vb_h at draw.py line 220: extent height floored to 1e-6. -/
def vb_h (vb : Extent) : ℚ := max (vb.maxY - vb.minY) (1/1000000)

/-- ar at draw.py line 221: aspect ratio of the guarded extent. -/
def ar (vb : Extent) : ℚ := vb_w vb / vb_h vb

/-- window.setup arguments at draw.py lines 224-228, from the surface's
current window_width()/window_height(). -/
def window_setup (vb : Extent) (winW winH : ℚ) : ℚ × ℚ :=
  if 1 < ar vb then (min winW winH * ar vb, min winW winH)
  else (min winW winH, min winW winH / ar vb)

/-- margin at draw.py line 233. -/
def margin : ℚ := 2/100

/-- dx at draw.py line 234. -/
def dx (vb : Extent) : ℚ := vb_w vb * margin

/-- dy at draw.py line 235. -/
def dy (vb : Extent) : ℚ := vb_h vb * margin

/-- llx at draw.py line 236. -/
def llx (vb : Extent) : ℚ := vb.minX - dx vb

/-- lly at draw.py line 237. -/
def lly (vb : Extent) : ℚ := -(vb.maxY + dy vb)

/-- urx at draw.py line 238. -/
def urx (vb : Extent) : ℚ := vb.maxX + dx vb

/-- ury at draw.py line 239. -/
def ury (vb : Extent) : ℚ := -(vb.minY - dy vb)

/-- The last row of an affine matrix as built by every transform branch:
(0, 0, 1). -/
def isAffine (m : Mat3) : Prop := m.m20 = 0 ∧ m.m21 = 0 ∧ m.m22 = 1

/-- The extent e contains the path bounding box bb (claim-side predicate
for the union bounding box of C4). -/
def covers_bb (e : Extent) (bb : BBox) : Prop :=
  e.minX ≤ bb.x0 ∧ bb.x1 ≤ e.maxX ∧ e.minY ≤ bb.y0 ∧ bb.y1 ≤ e.maxY

theorem mat_mul_assoc (a b c : Mat3) :
    mat_mul (mat_mul a b) c = mat_mul a (mat_mul b c) := by
  simp only [mat_mul, Mat3.mk.injEq]
  refine ⟨by ring, by ring, by ring, by ring, by ring, by ring, by ring,
    by ring, by ring⟩

theorem mat_mul_id_left (m : Mat3) : mat_mul mat_identity m = m := by
  cases m with
  | mk a b c d e f g h i =>
    simp only [mat_mul, mat_identity, Mat3.mk.injEq]
    refine ⟨by ring, by ring, by ring, by ring, by ring, by ring, by ring,
      by ring, by ring⟩

theorem mat_mul_id_right (m : Mat3) : mat_mul m mat_identity = m := by
  cases m with
  | mk a b c d e f g h i =>
    simp only [mat_mul, mat_identity, Mat3.mk.injEq]
    refine ⟨by ring, by ring, by ring, by ring, by ring, by ring, by ring,
      by ring, by ring⟩

theorem isAffine_opMatrix (cosd sind : ℚ → ℚ) (op : TOp) :
    isAffine (opMatrix cosd sind op) := by
  unfold opMatrix
  split_ifs <;> simp [isAffine, mat_mul, mat_identity]

theorem mat_apply_mul (a b : Mat3) (hb : isAffine b) (p : Point) :
    mat_apply (mat_mul a b) p = mat_apply a (mat_apply b p) := by
  obtain ⟨h1, h2, h3⟩ := hb
  simp only [mat_apply, mat_mul, h1, h2, h3, Prod.mk.injEq]
  constructor <;> ring

theorem foldl_mat (cosd sind : ℚ → ℚ) (ops : List TOp) (acc : Mat3) :
    ops.foldl (fun m op => mat_mul (opMatrix cosd sind op) m) acc
      = mat_mul
          (ops.foldl (fun m op => mat_mul (opMatrix cosd sind op) m)
            mat_identity) acc := by
  induction ops generalizing acc with
  | nil => rw [List.foldl_nil, List.foldl_nil, mat_mul_id_left]
  | cons op rest ih =>
    rw [List.foldl_cons, List.foldl_cons,
      ih (mat_mul (opMatrix cosd sind op) acc),
      ih (mat_mul (opMatrix cosd sind op) mat_identity), mat_mul_id_right,
      mat_mul_assoc]

theorem parse_transform_cons (cosd sind : ℚ → ℚ) (op : TOp) (ops : List TOp) :
    parse_transform cosd sind (op :: ops)
      = mat_mul (parse_transform cosd sind ops) (opMatrix cosd sind op) := by
  unfold parse_transform
  rw [List.foldl_cons,
    foldl_mat cosd sind ops (mat_mul (opMatrix cosd sind op) mat_identity),
    mat_mul_id_right]

/-- C5: parse_transform folds the ops of a transform list, in textual
left-to-right order, by left-multiplying each op matrix onto the running
result, so the composed matrix is Mn × ... × M1 and the last-listed
function is applied outermost to a point. -/
theorem c5_compose_order (cosd sind : ℚ → ℚ) (ops : List TOp) :
    parse_transform cosd sind ops
      = ((ops.map (opMatrix cosd sind)).reverse).foldl mat_mul mat_identity ∧
    ∀ p : Point, mat_apply (parse_transform cosd sind ops) p
      = ops.foldl (fun q op => mat_apply (opMatrix cosd sind op) q) p := by
  constructor
  · induction ops with
    | nil => rfl
    | cons op rest ih =>
      rw [parse_transform_cons, ih, List.map_cons, List.reverse_cons,
        List.foldl_append, List.foldl_cons, List.foldl_nil]
  · intro p
    induction ops generalizing p with
    | nil =>
      simp [parse_transform, mat_apply, mat_identity]
    | cons op rest ih =>
      rw [parse_transform_cons, List.foldl_cons,
        mat_apply_mul _ _ (isAffine_opMatrix cosd sind op), ih]

/-- C10: a rotate op with exactly two numeric arguments ignores the second
argument and rotates about the origin (identically to rotate with one
argument); a rotation center is honored only with three or more
arguments, via translate(cx,cy) × rotate × translate(-cx,-cy). -/
theorem c10_rotate_two_args (cosd sind : ℚ → ℚ) (a b cx cy : ℚ)
    (rest : List ℚ) :
    opMatrix cosd sind ("rotate", [a, b])
      = ⟨cosd a, -(sind a), 0, sind a, cosd a, 0, 0, 0, 1⟩ ∧
    opMatrix cosd sind ("rotate", [a, b]) = opMatrix cosd sind ("rotate", [a]) ∧
    opMatrix cosd sind ("rotate", a :: cx :: cy :: rest)
      = mat_mul (mat_mul ⟨1, 0, cx, 0, 1, cy, 0, 0, 1⟩
          ⟨cosd a, -(sind a), 0, sind a, cosd a, 0, 0, 0, 1⟩)
          ⟨1, 0, -cx, 0, 1, -cy, 0, 0, 1⟩ := by
  refine ⟨?_, ?_, ?_⟩ <;>
    simp [opMatrix, show str_lower "rotate" = "rotate" from by decide]

/-- C3 counterexample: a matrix(...) op with 7 numeric values is not
skipped; parse_transform turns it into a translate(5,5)-like matrix, not
the identity. -/
theorem c3_counterexample :
    parse_transform (fun _ => 1) (fun _ => 0) [("matrix", [1, 0, 0, 1, 5, 5, 7])]
        = ⟨1, 0, 5, 0, 1, 5, 0, 0, 1⟩ ∧
    parse_transform (fun _ => 1) (fun _ => 0) [("matrix", [1, 0, 0, 1, 5, 5, 7])]
        ≠ mat_identity := by
  constructor
  · rw [parse_transform_cons, parse_transform, List.foldl_nil, mat_mul_id_left]
    decide
  · rw [parse_transform_cons, parse_transform, List.foldl_nil, mat_mul_id_left]
    decide

/-- C3 amended: a matrix(...) op with fewer than 6 numeric values is
skipped (contributes the identity); with 6 or more values the first 6 are
used as (a,b,c,d,e,f). -/
theorem c3_matrix_arity (cosd sind : ℚ → ℚ) (name : String) (vals : List ℚ)
    (hname : str_lower name = "matrix") :
    (vals.length < 6 → opMatrix cosd sind (name, vals) = mat_identity) ∧
    (6 ≤ vals.length →
      opMatrix cosd sind (name, vals)
        = ⟨vals.getD 0 0, vals.getD 2 0, vals.getD 4 0,
           vals.getD 1 0, vals.getD 3 0, vals.getD 5 0, 0, 0, 1⟩) := by
  constructor
  · intro hlen
    simp [opMatrix, hname, Nat.not_le_of_lt hlen]
  · intro hlen
    simp [opMatrix, hname, hlen]

/-- C3 witness: matrix with 3 values contributes the identity. -/
theorem c3_matrix_arity_witness :
    str_lower "matrix" = "matrix" ∧ ([1, 2, 3] : List ℚ).length < 6 ∧
    opMatrix (fun _ => 1) (fun _ => 0) ("matrix", [1, 2, 3]) = mat_identity :=
  ⟨by decide, by decide,
    (c3_matrix_arity (fun _ => 1) (fun _ => 0) "matrix" [1, 2, 3]
      (by decide)).1 (by decide)⟩

/-- C1 counterexample: with viewBox tokens 0 0 200 100 and declared
width=100, height=50, read_svg does resolve the viewbox to (0,0,200,100),
but the extent main uses to derive the world-coordinate mapping is
(0,0,100,50): width/height wins, not the viewBox. -/
theorem c1_counterexample :
    read_svg_viewbox (some [0, 0, 200, 100]) 100 50 [] = ⟨0, 0, 200, 100⟩ ∧
    main_vb 100 50 [] ≠ ⟨0, 0, 200, 100⟩ ∧
    main_vb 100 50 [] = ⟨0, 0, 100, 50⟩ := by
  refine ⟨by decide, by decide, by decide⟩

/-- C1 amended: read_svg resolves a declared 4-token viewBox to that
viewBox, but whenever declared width and height are both positive, main
derives the world-coordinate mapping from the extent (0,0,width,height),
ignoring the resolved viewBox. -/
theorem c1_extent_for_mapping (w h : ℚ) (ts : List ℚ)
    (bbs : List (Option BBox)) (polys : List (List (List Point)))
    (hw : 0 < w) (hh : 0 < h) (hts : ts.length = 4) :
    read_svg_viewbox (some ts) w h bbs
      = ⟨ts.getD 0 0, ts.getD 1 0, ts.getD 2 0, ts.getD 3 0⟩ ∧
    main_vb w h polys = ⟨0, 0, w, h⟩ := by
  constructor
  · simp [read_svg_viewbox, hts]
  · unfold main_vb
    rw [if_pos ⟨hw, hh⟩]

/-- C1 witness: the amended claim at width=100, height=50, a 4-token
viewBox and no paths. -/
theorem c1_extent_for_mapping_witness :
    (0:ℚ) < 100 ∧ (0:ℚ) < 50 ∧ ([0, 0, 200, 100] : List ℚ).length = 4 ∧
    (read_svg_viewbox (some [0, 0, 200, 100]) 100 50 [] = ⟨0, 0, 200, 100⟩ ∧
      main_vb 100 50 [] = ⟨0, 0, 100, 50⟩) :=
  ⟨by norm_num, by norm_num, by decide,
    c1_extent_for_mapping 100 50 [0, 0, 200, 100] [] [] (by norm_num)
      (by norm_num) (by decide)⟩

theorem vb_w_pos (vb : Extent) : 0 < vb_w vb :=
  lt_of_lt_of_le (by norm_num) (le_max_right _ _)

theorem vb_h_pos (vb : Extent) : 0 < vb_h vb :=
  lt_of_lt_of_le (by norm_num) (le_max_right _ _)

theorem ar_pos (vb : Extent) : 0 < ar vb := div_pos (vb_w_pos vb) (vb_h_pos vb)

/-- C2 counterexample: for the extent (0,0,2,1) (aspect ratio 2) and a
surface of 800 × 600, the computed window is (1200, 600): the larger
surface dimension (800) is not preserved in either output dimension. -/
theorem c2_counterexample :
    window_setup ⟨0, 0, 2, 1⟩ 800 600 = (1200, 600) ∧
    (window_setup ⟨0, 0, 2, 1⟩ 800 600).1 ≠ max (800:ℚ) 600 ∧
    (window_setup ⟨0, 0, 2, 1⟩ 800 600).2 ≠ max (800:ℚ) 600 := by
  have h : window_setup ⟨0, 0, 2, 1⟩ 800 600 = (1200, 600) := by
    norm_num [window_setup, ar, vb_w, vb_h]
  refine ⟨h, ?_, ?_⟩ <;> rw [h] <;> norm_num

/-- C2 amended: both output window dimensions are built from the shared
minimum m of the surface's current width/height: the output aspect ratio
equals the (guarded) extent aspect ratio, one output dimension equals m,
and when m is positive neither output dimension is below m. -/
theorem c2_window_size (vb : Extent) (winW winH : ℚ)
    (hm : 0 < min winW winH) :
    (window_setup vb winW winH).1 = ar vb * (window_setup vb winW winH).2 ∧
    ((window_setup vb winW winH).1 = min winW winH ∨
      (window_setup vb winW winH).2 = min winW winH) ∧
    min winW winH ≤ (window_setup vb winW winH).1 ∧
    min winW winH ≤ (window_setup vb winW winH).2 := by
  have har : 0 < ar vb := ar_pos vb
  unfold window_setup
  split_ifs with h1
  · refine ⟨mul_comm _ _, Or.inr rfl, ?_, le_refl _⟩
    calc min winW winH = min winW winH * 1 := (mul_one _).symm
    _ ≤ min winW winH * ar vb := by
        exact mul_le_mul_of_nonneg_left h1.le hm.le
  · push_neg at h1
    refine ⟨?_, Or.inl rfl, le_refl _, ?_⟩
    · dsimp only
      rw [mul_comm, div_mul_cancel₀ _ (ne_of_gt har)]
    · dsimp only
      rw [le_div_iff₀ har]
      exact mul_le_of_le_one_right hm.le h1

/-- C2 witness: the amended claim at extent (0,0,2,1) and surface
800 × 600. -/
theorem c2_window_size_witness :
    (0:ℚ) < min 800 600 ∧
    ((window_setup ⟨0, 0, 2, 1⟩ 800 600).1
        = ar ⟨0, 0, 2, 1⟩ * (window_setup ⟨0, 0, 2, 1⟩ 800 600).2 ∧
      ((window_setup ⟨0, 0, 2, 1⟩ 800 600).1 = min 800 600 ∨
        (window_setup ⟨0, 0, 2, 1⟩ 800 600).2 = min 800 600) ∧
      min (800:ℚ) 600 ≤ (window_setup ⟨0, 0, 2, 1⟩ 800 600).1 ∧
      min (800:ℚ) 600 ≤ (window_setup ⟨0, 0, 2, 1⟩ 800 600).2) :=
  ⟨by norm_num, c2_window_size ⟨0, 0, 2, 1⟩ 800 600 (by norm_num)⟩

theorem bbox_fold_mono (bbs : List (Option BBox)) (e0 : Extent) :
    ∃ e1, List.foldl bbox_step (some e0) bbs = some e1 ∧
      e1.minX ≤ e0.minX ∧ e1.minY ≤ e0.minY ∧
      e0.maxX ≤ e1.maxX ∧ e0.maxY ≤ e1.maxY := by
  induction bbs generalizing e0 with
  | nil => exact ⟨e0, rfl, le_refl _, le_refl _, le_refl _, le_refl _⟩
  | cons ob rest ih =>
    cases ob with
    | none => simpa [bbox_step] using ih e0
    | some bb =>
      obtain ⟨e1, h1, h2, h3, h4, h5⟩ :=
        ih ⟨min e0.minX bb.x0, min e0.minY bb.y0,
            max e0.maxX bb.x1, max e0.maxY bb.y1⟩
      refine ⟨e1, ?_, ?_, ?_, ?_, ?_⟩
      · simpa [bbox_step] using h1
      · exact le_trans h2 (min_le_left _ _)
      · exact le_trans h3 (min_le_left _ _)
      · exact le_trans (le_max_left _ _) h4
      · exact le_trans (le_max_left _ _) h5

theorem bbox_fold_covers (bbs : List (Option BBox)) :
    ∀ (acc : Option Extent) (e1 : Extent),
      List.foldl bbox_step acc bbs = some e1 →
      ∀ bb : BBox, some bb ∈ bbs → covers_bb e1 bb := by
  induction bbs with
  | nil =>
    intro acc e1 _ bb hmem
    exact absurd hmem (List.not_mem_nil _)
  | cons ob rest ih =>
    intro acc e1 hfold bb hmem
    rw [List.foldl_cons] at hfold
    rcases List.mem_cons.mp hmem with hob | hrest
    · have hstep : ∃ e2, bbox_step acc ob = some e2 ∧ covers_bb e2 bb := by
        rw [← hob]
        cases acc with
        | none =>
          exact ⟨⟨bb.x0, bb.y0, bb.x1, bb.y1⟩, rfl,
            le_refl _, le_refl _, le_refl _, le_refl _⟩
        | some e =>
          exact ⟨⟨min e.minX bb.x0, min e.minY bb.y0,
              max e.maxX bb.x1, max e.maxY bb.y1⟩, rfl,
            min_le_right _ _, le_max_right _ _,
            min_le_right _ _, le_max_right _ _⟩
      obtain ⟨e2, he2, hc1, hc2, hc3, hc4⟩ := hstep
      rw [he2] at hfold
      obtain ⟨e3, h1, h2, h3, h4, h5⟩ := bbox_fold_mono rest e2
      rw [h1] at hfold
      cases Option.some.inj hfold
      exact ⟨le_trans h2 hc1, le_trans hc2 h4, le_trans h3 hc3,
        le_trans hc4 h5⟩
    · exact ih (bbox_step acc ob) e1 hfold bb hrest

/-- C4 counterexample: a declared but malformed viewBox (3 tokens) with
unusable width/height (both 0) does not fall back to the path bounding
boxes: read_svg resolves the degenerate extent (0,0,0,0) even though a
valid path bbox exists whose union is (1,1,5,5). -/
theorem c4_counterexample :
    read_svg_viewbox (some [0, 0, 200]) 0 0 [some ⟨1, 5, 1, 5⟩]
        = ⟨0, 0, 0, 0⟩ ∧
    union_bboxes [some ⟨1, 5, 1, 5⟩] = some ⟨1, 1, 5, 5⟩ ∧
    (⟨0, 0, 0, 0⟩ : Extent) ≠ ⟨1, 1, 5, 5⟩ ∧
    (⟨0, 0, 0, 0⟩ : Extent) ≠ ⟨0, 0, 1000, 1000⟩ :=
  ⟨by decide, by decide, by decide, by decide⟩

/-- C4 amended: the path-bbox-union / default fallback applies only when
no viewBox attribute is present at all: then, with width and height not
both positive, the extent is the union bounding box of the valid path
bboxes (it contains every one of them), or (0,0,1000,1000) when none is
valid.  When a viewBox is declared but does not split into 4 tokens, the
extent is (0,0,width,height) even if those dimensions are unusable. -/
theorem c4_fallback_chain (w h : ℚ) (bbs : List (Option BBox))
    (hwh : ¬(0 < w ∧ 0 < h)) :
    (union_bboxes bbs = none →
      read_svg_viewbox none w h bbs = ⟨0, 0, 1000, 1000⟩) ∧
    (∀ e, union_bboxes bbs = some e →
      read_svg_viewbox none w h bbs = e ∧
      ∀ bb : BBox, some bb ∈ bbs → covers_bb e bb) ∧
    (∀ ts : List ℚ, ts.length ≠ 4 →
      read_svg_viewbox (some ts) w h bbs = ⟨0, 0, w, h⟩) := by
  refine ⟨?_, ?_, ?_⟩
  · intro hnone
    simp only [read_svg_viewbox]
    rw [if_neg hwh, hnone]
  · intro e he
    constructor
    · simp only [read_svg_viewbox]
      rw [if_neg hwh, he]
    · exact bbox_fold_covers bbs none e he
  · intro ts hts
    simp only [read_svg_viewbox]
    rw [if_neg hts]

/-- C4 witness: no viewBox, zero dimensions and no paths resolve to the
default extent. -/
theorem c4_fallback_chain_witness :
    ¬((0:ℚ) < 0 ∧ (0:ℚ) < 0) ∧
    read_svg_viewbox none 0 0 [] = ⟨0, 0, 1000, 1000⟩ :=
  ⟨by norm_num, (c4_fallback_chain 0 0 [] (by norm_num)).1 rfl⟩

/-- C6: with the epsilon-guarded width/height and a 2% margin, the world
rectangle runs from minX - dx to maxX + dx horizontally, and with the
vertical axis inverted the lower Y bound is -(maxY + dy) and the upper Y
bound is -(minY - dy). -/
theorem c6_world_rect (vb : Extent) :
    llx vb = vb.minX - (2/100) * vb_w vb ∧
    urx vb = vb.maxX + (2/100) * vb_w vb ∧
    lly vb = -(vb.maxY + (2/100) * vb_h vb) ∧
    ury vb = -(vb.minY - (2/100) * vb_h vb) := by
  refine ⟨?_, ?_, ?_, ?_⟩ <;>
    simp only [llx, urx, lly, ury, dx, dy, margin] <;> ring

theorem linspace_getD (n i : ℕ) (h : i < n) :
    (linspace01 n).getD i 0 = (i : ℚ) / ((n : ℚ) - 1) := by
  unfold linspace01
  rw [List.getD_eq_getElem?_getD, List.getElem?_map, List.getElem?_range h]
  rfl

/-- C7: the flattener samples exactly max(2, ceil(length/seg_unit))
parameter values, evenly spaced over [0,1] with both endpoints included;
length 17 with seg_unit 8 gives 3 samples and a zero-length segment gives
exactly 2. -/
theorem c7_sample_count (l u : ℚ) (hu : 0 < u) :
    (linspace01 (interp_num l u)).length = max 2 (Int.ceil (l / u)).toNat ∧
    (linspace01 (interp_num l u)).getD 0 0 = 0 ∧
    (linspace01 (interp_num l u)).getD (interp_num l u - 1) 0 = 1 ∧
    (∀ i : ℕ, i + 1 < interp_num l u →
      (linspace01 (interp_num l u)).getD (i + 1) 0
          - (linspace01 (interp_num l u)).getD i 0
        = 1 / ((interp_num l u : ℚ) - 1)) ∧
    interp_num 17 8 = 3 ∧ interp_num 0 u = 2 := by
  have h2 : 2 ≤ interp_num l u := le_max_left _ _
  have hpos : 0 < interp_num l u := lt_of_lt_of_le (by norm_num) h2
  have hcast : (1:ℚ) < (interp_num l u : ℚ) := by
    exact_mod_cast lt_of_lt_of_le (by norm_num) h2
  have hne : ((interp_num l u : ℚ) - 1) ≠ 0 :=
    sub_ne_zero.mpr (ne_of_gt hcast)
  refine ⟨?_, ?_, ?_, ?_, ?_, ?_⟩
  · simp [linspace01, interp_num]
  · rw [linspace_getD _ _ hpos]
    simp
  · rw [linspace_getD _ _ (Nat.sub_lt hpos one_pos),
      Nat.cast_sub (le_trans (by norm_num) h2), Nat.cast_one,
      div_self hne]
  · intro i hi
    rw [linspace_getD _ _ hi,
      linspace_getD _ _ (lt_trans (Nat.lt_succ_self i) hi),
      div_sub_div_same]
    push_cast
    ring_nf
  · have hc : (⌈(17:ℚ) / 8⌉ : ℤ) = 3 := by norm_num [Int.ceil_eq_iff]
    simp [interp_num, hc]
  · simp [interp_num]

/-- C7 witness: the sampling facts at length 17 and seg_unit 8. -/
theorem c7_sample_count_witness :
    (0:ℚ) < 8 ∧ interp_num 17 8 = 3 ∧
    (linspace01 (interp_num 17 8)).length
      = max 2 (Int.ceil ((17:ℚ) / 8)).toNat :=
  ⟨by norm_num, (c7_sample_count 17 8 (by norm_num)).2.2.2.2.1,
    (c7_sample_count 17 8 (by norm_num)).1⟩

/-- C8: every assembled ring is explicitly closed: after concatenating the
subpath's segment samples, appending the copy of the first point and
applying the composed transform to every point, the last point of the
ring equals its first point (and the ring is nonempty). -/
theorem c8_ring_closure (m : Mat3) (segSamples : List (List Point))
    (h : segSamples.flatten ≠ []) :
    (build_ring m segSamples).head? = (build_ring m segSamples).getLast? ∧
    build_ring m segSamples ≠ [] := by
  obtain ⟨p, rest, hpr⟩ := List.exists_cons_of_ne_nil h
  unfold build_ring
  rw [hpr]
  have hhead : (p :: rest).headI = p := rfl
  rw [hhead]
  constructor
  · simp only [List.cons_append, List.map_cons, List.map_append,
      List.map_nil, List.head?_cons]
    rw [← List.cons_append, List.getLast?_concat]
  · simp

/-- C8 witness: a one-segment subpath with two sample points yields a
closed nonempty ring. -/
theorem c8_ring_closure_witness :
    ([[((0:ℚ), (0:ℚ)), ((1:ℚ), (2:ℚ))]] : List (List Point)).flatten ≠ [] ∧
    ((build_ring mat_identity [[((0:ℚ), (0:ℚ)), ((1:ℚ), (2:ℚ))]]).head?
        = (build_ring mat_identity [[((0:ℚ), (0:ℚ)), ((1:ℚ), (2:ℚ))]]).getLast? ∧
      build_ring mat_identity [[((0:ℚ), (0:ℚ)), ((1:ℚ), (2:ℚ))]] ≠ []) :=
  ⟨by decide, c8_ring_closure mat_identity _ (by decide)⟩

/-- C9: the degenerate-extent guard makes the mapping total: for every
extent the guarded width, height and aspect ratio are positive (no zero
divisor anywhere), and at the degenerate extent (0,0,0,0) the produced
world bounds and window size are the explicit finite values below. -/
theorem c9_degenerate_guard :
    (∀ vb : Extent, 0 < vb_w vb ∧ 0 < vb_h vb ∧ 0 < ar vb ∧
      vb_h vb ≠ 0 ∧ ar vb ≠ 0) ∧
    vb_w ⟨0, 0, 0, 0⟩ = 1/1000000 ∧ vb_h ⟨0, 0, 0, 0⟩ = 1/1000000 ∧
    ar ⟨0, 0, 0, 0⟩ = 1 ∧
    window_setup ⟨0, 0, 0, 0⟩ 640 480 = (480, 480) ∧
    llx ⟨0, 0, 0, 0⟩ = -(1/50000000) ∧ lly ⟨0, 0, 0, 0⟩ = -(1/50000000) ∧
    urx ⟨0, 0, 0, 0⟩ = 1/50000000 ∧ ury ⟨0, 0, 0, 0⟩ = 1/50000000 := by
  refine ⟨fun vb => ⟨vb_w_pos vb, vb_h_pos vb, ar_pos vb,
      ne_of_gt (vb_h_pos vb), ne_of_gt (ar_pos vb)⟩,
    ?_, ?_, ?_, ?_, ?_, ?_, ?_, ?_⟩ <;>
    norm_num [vb_w, vb_h, ar, window_setup, llx, lly, urx, ury, dx, dy,
      margin]

end Draw
